import Mathlib

unseal Rat.mul Rat.inv Rat.add Rat.sub Rat.ofScientific

/-!
Verification development for the ICT trading agent repository.

Shallow embedding conventions:
* Python floats are modelled as rationals (`ℚ`); the spec promises no
  numerical-precision guarantees beyond standard floating point, and all
  claim-relevant arithmetic here is exact.
* `datetime` values are modelled by the integer quantities the code actually
  inspects: an epoch instant (`ℤ`, minutes), a calendar day index, a
  time-of-day (minutes, New York local) and an ISO week index.
* Python `None` becomes `Option`.
* The field `open` of a candle is called `opn` (`open` is a Lean keyword).
-/

namespace IctTrader

/-- Division on `ℚ` through the kernel-computable core function (the same
operation as the field division, `x / 0 = 0` included); registering it lets
concrete program runs below be checked by `decide`. -/
instance : Div ℚ := ⟨Rat.div⟩

/-- The shadowed division agrees with core division definitionally. -/
theorem qdiv_def (a b : ℚ) : a / b = Rat.div a b := rfl

/-- Trade direction, from `models.TradeDirection`. -/
inductive TradeDirection where
  | long
  | short
deriving DecidableEq, Repr

/-- Multiplier property of `models.TradeDirection` (`1` for long, `-1` for short). -/
def TradeDirection.multiplier : TradeDirection → ℤ
  | .long => 1
  | .short => -1

/-- Order lifecycle states, from `models.TradeState`.  Note the enum has no
EXPIRED member: expired orders are recorded as CANCELLED. -/
inductive TradeState where
  | waiting
  | filled
  | managing
  | exit
  | cancelled
deriving DecidableEq, Repr

/-- Order event kinds, from `models.OrderEventType`. -/
inductive OrderEventType where
  | placed
  | filled
  | tp_hit
  | sl_hit
  | expired
  | cancelled
  | time_stop
deriving DecidableEq, Repr

/-- A price bar, from `models.Candle`.  `timestamp` is the epoch instant in
minutes; the timeframe label is irrelevant to the claims and omitted. -/
structure Candle where
  timestamp : ℤ
  opn : ℚ
  high : ℚ
  low : ℚ
  close : ℚ
  volume : ℚ
deriving DecidableEq, Repr

/-- `Candle.body` property: absolute size of the candle body. -/
def Candle.body (c : Candle) : ℚ := |c.close - c.opn|

/-- `Candle.direction` property: long when the close is at or above the open. -/
def Candle.direction (c : Candle) : TradeDirection :=
  if c.close ≥ c.opn then .long else .short

/-- The bar invariant stated in the spec's data model: the high is at least
the body's top and the low is at most the body's bottom. -/
def Candle.valid (c : Candle) : Prop :=
  c.high ≥ max c.opn c.close ∧ c.low ≤ min c.opn c.close

instance (c : Candle) : Decidable c.valid := by
  unfold Candle.valid; infer_instance

/-- Bias snapshot, from `models.BiasSnapshot` (the fields the execution engine
reads). -/
structure BiasSnapshot where
  bias : TradeDirection
  target_price : Option ℚ
  id : ℤ
deriving DecidableEq, Repr

/-- Structure zone, from `models.StructureZone` (the fields the execution
engine reads). -/
structure StructureZone where
  direction : TradeDirection
  low : ℚ
  high : ℚ
  id : ℤ
  expires_at : Option ℤ
deriving DecidableEq, Repr

/-- `StructureZone.contains`, from `models.py`. -/
def StructureZone.contains (z : StructureZone) (price : ℚ) : Prop :=
  z.low ≤ price ∧ price ≤ z.high

instance (z : StructureZone) (p : ℚ) : Decidable (z.contains p) := by
  unfold StructureZone.contains; infer_instance

/-- Execution signal, from `models.ExecutionSignal` (symbol/timeframe/reason
strings omitted: no claim mentions them). -/
structure ExecutionSignal where
  generated_at : ℤ
  direction : TradeDirection
  entry : ℚ
  stop : ℚ
  target : ℚ
  rr : ℚ
  bias_snapshot_id : ℤ
  structure_zone_id : ℤ
deriving DecidableEq, Repr

/-- Order plan, from `models.OrderPlan` (the fields the broker, order manager
and supervisor read). -/
structure OrderPlan where
  direction : TradeDirection
  entry : ℚ
  stop : ℚ
  target : ℚ
  size : ℤ
  expires_at : Option ℤ
  state : TradeState
  filled_price : Option ℚ
deriving DecidableEq, Repr

/-- `OrderPlan.stop_distance` property from `models.py`. -/
def OrderPlan.stop_distance (o : OrderPlan) : ℚ := |o.entry - o.stop|

/-- Order event, from `models.OrderEvent`. -/
structure OrderEvent where
  timestamp : ℤ
  event_type : OrderEventType
  price : Option ℚ
  pnl : Option ℚ
  pnl_r : Option ℚ
  reason : Option String
deriving DecidableEq, Repr

/-! ### List helpers mirroring Python slicing

`lastN n l` is Python `l[-n:]` (for `n ≥ 1`); `dropLastN n l` is `l[:-n]`. -/

/-- Python slice `l[-n:]`. -/
def lastN (n : ℕ) (l : List α) : List α := l.drop (l.length - n)

/-- Python slice `l[:-n]`. -/
def dropLastN (n : ℕ) (l : List α) : List α := l.take (l.length - n)

/-- Python `max` of a list of rationals (`none` on the empty list, where the
Python call would raise). -/
def maxList : List ℚ → Option ℚ
  | [] => none
  | x :: xs => some (xs.foldl max x)

/-- Python `min` of a list of rationals. -/
def minList : List ℚ → Option ℚ
  | [] => none
  | x :: xs => some (xs.foldl min x)

end IctTrader

namespace IctTrader

/-! ### Execution engine (`engines/execution.py`)

`ExecutionEngine.evaluate` appends the incoming candle to its deque and then
runs structure, sweep, displacement and risk/reward checks.  The deque content
before the append is the `prevCandles` argument; the store lookups
`latest_bias()`/`latest_structure()` are the two `Option` arguments. -/

/-- `ExecutionEngine._valid_structure`: the latest structure zone, discarded
when its expiry is strictly before the current bar time. -/
def validStructure (latest : Option StructureZone) (now : ℤ) : Option StructureZone :=
  match latest with
  | none => none
  | some z =>
    match z.expires_at with
    | some e => if e < now then none else some z
    | none => some z

/-- `ExecutionEngine._detect_liquidity_sweep`: the last 3 candles are compared
against the extremes of all earlier buffered candles; a pierce below the prior
low reads long, a pierce above the prior high reads short, both at once reads
nothing. -/
def detectLiquiditySweep (candles : List Candle) : Option TradeDirection :=
  let recent := lastN 3 candles
  let lastHigh := ((recent.getLast?).map Candle.high).getD 0
  let lastLow := ((recent.getLast?).map Candle.low).getD 0
  let prevRangeHigh :=
    if 3 < candles.length then (maxList ((dropLastN 3 candles).map Candle.high)).getD 0
    else lastHigh
  let prevRangeLow :=
    if 3 < candles.length then (minList ((dropLastN 3 candles).map Candle.low)).getD 0
    else lastLow
  let sweepUp := recent.any fun c => decide (prevRangeHigh < c.high)
  let sweepDown := recent.any fun c => decide (c.low < prevRangeLow)
  if sweepUp && sweepDown then none
  else if sweepUp then some .short
  else if sweepDown then some .long
  else none

/-- `ExecutionEngine._detect_displacement_and_fvg`: displacement is the middle
candle's body measured against the average body of the five bars before the
current one; the gap bounds depend on the directions of the first two of the
last three candles. -/
def detectDisplacementFvg (candles : List Candle) : Option ℚ × Option (ℚ × ℚ) :=
  match lastN 3 candles with
  | [c1, c2, c3] =>
    let displacement := c2.body
    let avgBody :=
      if 6 ≤ candles.length then ((((lastN 6 candles).dropLast).map Candle.body).sum) / 5
      else displacement
    if displacement < avgBody * (6/5) then (none, none)
    else
      let bounds : ℚ × ℚ :=
        if c1.direction = .long ∧ c2.direction = .long then
          (max c1.high c2.opn, min c2.low c3.low)
        else if c1.direction = .short ∧ c2.direction = .short then
          (max c2.high c3.high, min c1.low c2.opn)
        else (min c1.high c2.high, max c1.low c2.low)
      if bounds.2 ≤ bounds.1 then (some displacement, none)
      else (some displacement, some bounds)
  | _ => (none, none)

/-- `ExecutionEngine._derive_orders`. -/
def deriveOrders (direction : TradeDirection) (fvgBounds : Option (ℚ × ℚ))
    (lastClose : ℚ) (biasTarget : Option ℚ) : ℚ × ℚ × ℚ :=
  let eg : ℚ × ℚ :=
    match fvgBounds with
    | some (lo, hi) => ((lo + hi) / 2, |hi - lo|)
    | none => (lastClose, 1)
  let entry := eg.1
  let gap := eg.2
  let stopBuffer : ℚ := match fvgBounds with | some _ => gap | none => max (1/2) gap
  let stopDist := max stopBuffer (1/2)
  match direction with
  | .long =>
    let stop := entry - stopDist
    let defaultTarget := entry + stopDist * 2
    let target := match biasTarget with | none => defaultTarget | some bt => max defaultTarget bt
    (entry, stop, target)
  | .short =>
    let stop := entry + stopDist
    let defaultTarget := entry - stopDist * 2
    let target := match biasTarget with | none => defaultTarget | some bt => min defaultTarget bt
    (entry, stop, target)

/-- `ExecutionEngine.evaluate` with the mutable context made explicit. -/
def evaluate (rr_target : ℚ) (prevCandles : List Candle) (candle : Candle)
    (latestBias : Option BiasSnapshot) (latestStructure : Option StructureZone) :
    Option ExecutionSignal :=
  let candles := prevCandles ++ [candle]
  if candles.length < 5 then none else
  match latestBias, validStructure latestStructure candle.timestamp with
  | some bias, some zone =>
    if zone.direction ≠ bias.bias then none
    else if ¬ zone.contains candle.close then none
    else
      match detectLiquiditySweep candles with
      | none => none
      | some sweepDir =>
        if sweepDir ≠ bias.bias then none
        else
          match detectDisplacementFvg candles with
          | (none, _) => none
          | (some _, fvgBounds) =>
            let est := deriveOrders bias.bias fvgBounds candle.close bias.target_price
            let rr := |est.2.2 - est.1| / max (1/1000000) |est.1 - est.2.1|
            if rr < rr_target then none
            else some {
              generated_at := candle.timestamp
              direction := bias.bias
              entry := est.1
              stop := est.2.1
              target := est.2.2
              rr := rr
              bias_snapshot_id := bias.id
              structure_zone_id := zone.id }
  | _, _ => none

end IctTrader

namespace IctTrader

/-! ### Concrete example inputs

A five-candle buffer on which `evaluate` emits a signal.  All candles satisfy
the bar invariant.  `exE7` is a variant of the final candle whose close is
below its open. -/

/-- Example candle 1. -/
def exA : Candle := { timestamp := 0, opn := 10, high := 12, low := 9, close := 11, volume := 0 }

/-- Example candle 2. -/
def exB : Candle := { timestamp := 1, opn := 11, high := 12, low := 9, close := 10, volume := 0 }

/-- Example candle 3: its low 8.5 pierces below the prior low 9. -/
def exC : Candle := { timestamp := 2, opn := 10, high := 11, low := 17/2, close := 21/2, volume := 0 }

/-- Example candle 4: a zero-body candle. -/
def exD : Candle := { timestamp := 3, opn := 10, high := 11, low := 19/2, close := 10, volume := 0 }

/-- Example candle 5 (current bar). -/
def exE : Candle := { timestamp := 4, opn := 10, high := 11, low := 19/2, close := 21/2, volume := 0 }

/-- Variant of the current bar closing below its open. -/
def exE7 : Candle := { timestamp := 4, opn := 53/5, high := 11, low := 19/2, close := 21/2, volume := 0 }

/-- Example long bias snapshot with no target price. -/
def exBias : BiasSnapshot := { bias := .long, target_price := none, id := 1 }

/-- Example long structure zone covering the example closes. -/
def exZone : StructureZone := { direction := .long, low := 9, high := 11, id := 2, expires_at := none }

/-- C2: every `ExecutionSignal` emitted by `ExecutionEngine.evaluate` carries
the reward:risk ratio `|target − entry| / max ε |entry − stop|` (ε = 10⁻⁶),
and that ratio is at least the configured `rr_target`; inputs whose ratio
falls below the threshold yield no signal. -/
theorem C2_signal_rr_meets_threshold (rt : ℚ) (prev : List Candle) (c : Candle)
    (b : Option BiasSnapshot) (z : Option StructureZone) (sig : ExecutionSignal)
    (h : evaluate rt prev c b z = some sig) :
    sig.rr = |sig.target - sig.entry| / max (1/1000000) |sig.entry - sig.stop| ∧
      rt ≤ sig.rr := by
  simp only [evaluate] at h
  split at h
  · simp at h
  · split at h
    · split at h
      · simp at h
      · split at h
        · simp at h
        · split at h
          · simp at h
          · split at h
            · simp at h
            · split at h
              · simp at h
              · split at h
                · simp at h
                · rename_i hrr
                  rw [Option.some.injEq] at h
                  subst h
                  exact ⟨rfl, le_of_not_lt hrr⟩
    · simp at h

/-- Witness for C2: the example input emits a signal, and the theorem applied
to it yields ratio 2 at threshold 2. -/
theorem C2_signal_rr_meets_threshold_witness :
    ∃ sig, evaluate 2 [exA, exB, exC, exD] exE (some exBias) (some exZone) = some sig ∧
      sig.rr = |sig.target - sig.entry| / max (1/1000000) |sig.entry - sig.stop| ∧
      (2:ℚ) ≤ sig.rr := by
  have h : evaluate 2 [exA, exB, exC, exD] exE (some exBias) (some exZone) =
      some { generated_at := 4, direction := .long, entry := 21/2, stop := 19/2,
             target := 25/2, rr := 2, bias_snapshot_id := 1, structure_zone_id := 2 } := by
    decide
  exact ⟨_, h, C2_signal_rr_meets_threshold 2 [exA, exB, exC, exD] exE
    (some exBias) (some exZone) _ h⟩


/-- Helper: facts recoverable from a successful `validStructure` lookup. -/
theorem validStructure_some (latest : Option StructureZone) (now : ℤ) (zone : StructureZone)
    (h : validStructure latest now = some zone) :
    latest = some zone ∧ ∀ e, zone.expires_at = some e → ¬ e < now := by
  unfold validStructure at h
  split at h
  · simp at h
  next z =>
    split at h
    next e he =>
      split at h
      · simp at h
      next hlt =>
        rw [Option.some.injEq] at h
        subst h
        refine ⟨rfl, ?_⟩
        intro e' he'
        rw [he] at he'
        rw [Option.some.injEq] at he'
        subst he'
        exact hlt
    next he =>
      rw [Option.some.injEq] at h
      subst h
      refine ⟨rfl, ?_⟩
      intro e' he'
      rw [he] at he'
      exact absurd he' (by simp)

/-- Helper: everything the success path of `evaluate` guarantees. -/
theorem evaluate_some_inv (rt : ℚ) (prev : List Candle) (c : Candle)
    (b : Option BiasSnapshot) (z : Option StructureZone) (sig : ExecutionSignal)
    (h : evaluate rt prev c b z = some sig) :
    5 ≤ (prev ++ [c]).length ∧
    ∃ bias zone, b = some bias ∧ validStructure z c.timestamp = some zone ∧
      zone.direction = bias.bias ∧ zone.contains c.close ∧
      detectLiquiditySweep (prev ++ [c]) = some bias.bias ∧
      sig.direction = bias.bias := by
  simp only [evaluate] at h
  split at h
  · simp at h
  next hlen =>
    split at h
    next =>
      rename_i bias zone heqz
      split at h
      · simp at h
      next hdir =>
        split at h
        · simp at h
        next hcont =>
          split at h
          · simp at h
          next sweepDir heqs =>
            split at h
            · simp at h
            next hsd =>
              split at h
              · simp at h
              next disp fvgB heqf =>
                split at h
                · simp at h
                next hrr =>
                  rw [Option.some.injEq] at h
                  subst h
                  push_neg at hlen
                  refine ⟨hlen, bias, zone, rfl, heqz, ?_, ?_, ?_, rfl⟩
                  · push_neg at hdir; exact hdir
                  · push_neg at hcont; exact hcont
                  · push_neg at hsd; rw [hsd] at heqs; exact heqs
    · simp at h


/-- The `sweep_up` flag of `ExecutionEngine._detect_liquidity_sweep`: some bar
among the last 3 pierces above the highest high of all earlier buffered bars. -/
def sweepUpFlag (candles : List Candle) : Bool :=
  let recent := lastN 3 candles
  let lastHigh := ((recent.getLast?).map Candle.high).getD 0
  let prevRangeHigh :=
    if 3 < candles.length then (maxList ((dropLastN 3 candles).map Candle.high)).getD 0
    else lastHigh
  recent.any fun c => decide (prevRangeHigh < c.high)

/-- The `sweep_down` flag of `ExecutionEngine._detect_liquidity_sweep`: some
bar among the last 3 pierces below the lowest low of all earlier buffered
bars. -/
def sweepDownFlag (candles : List Candle) : Bool :=
  let recent := lastN 3 candles
  let lastLow := ((recent.getLast?).map Candle.low).getD 0
  let prevRangeLow :=
    if 3 < candles.length then (minList ((dropLastN 3 candles).map Candle.low)).getD 0
    else lastLow
  recent.any fun c => decide (c.low < prevRangeLow)

/-- Helper: `_detect_liquidity_sweep` written through the two pierce flags. -/
theorem detectLiquiditySweep_eq (candles : List Candle) :
    detectLiquiditySweep candles =
      (if sweepUpFlag candles && sweepDownFlag candles then none
       else if sweepUpFlag candles then some .short
       else if sweepDownFlag candles then some .long
       else none) := rfl

/-- Helper: a successful sweep detection pins down the two pierce flags. -/
theorem detectLiquiditySweep_some (candles : List Candle) (d : TradeDirection)
    (h : detectLiquiditySweep candles = some d) :
    (d = .long → sweepDownFlag candles = true ∧ sweepUpFlag candles = false) ∧
    (d = .short → sweepUpFlag candles = true ∧ sweepDownFlag candles = false) := by
  rw [detectLiquiditySweep_eq] at h
  cases hu : sweepUpFlag candles <;> cases hd : sweepDownFlag candles <;>
    rw [hu, hd] at h <;> simp_all <;> subst h <;> simp


/-- The signal emitted on the example inputs. -/
def exSig : ExecutionSignal :=
  { generated_at := 4, direction := .long, entry := 21/2, stop := 19/2,
    target := 25/2, rr := 2, bias_snapshot_id := 1, structure_zone_id := 2 }

/-- C6 (amended: the buffer threshold in the code is 5 bars, not 15):
`ExecutionEngine.evaluate` emits no signal unless at least 5 bars are
buffered, a bias exists, and a non-expired structure zone with direction
matching the bias contains the current bar close; violating any prerequisite
yields no signal. -/
theorem C6_evaluate_prerequisites (rt : ℚ) (prev : List Candle) (c : Candle)
    (b : Option BiasSnapshot) (z : Option StructureZone) (sig : ExecutionSignal)
    (h : evaluate rt prev c b z = some sig) :
    5 ≤ (prev ++ [c]).length ∧
    ∃ bias zone, b = some bias ∧ z = some zone ∧
      (∀ e, zone.expires_at = some e → ¬ e < c.timestamp) ∧
      zone.direction = bias.bias ∧ zone.contains c.close := by
  obtain ⟨hlen, bias, zone, hb, hvz, hdir, hcont, _, _⟩ :=
    evaluate_some_inv rt prev c b z sig h
  obtain ⟨hz, hexp⟩ := validStructure_some z c.timestamp zone hvz
  exact ⟨hlen, bias, zone, hb, hz, hexp, hdir, hcont⟩

/-- Witness for C6's amended theorem at the concrete emitting input. -/
theorem C6_evaluate_prerequisites_witness :
    5 ≤ ([exA, exB, exC, exD] ++ [exE]).length ∧
    ∃ bias zone, (some exBias) = some bias ∧ (some exZone) = some zone ∧
      (∀ e, zone.expires_at = some e → ¬ e < exE.timestamp) ∧
      zone.direction = bias.bias ∧ zone.contains exE.close :=
  C6_evaluate_prerequisites 2 [exA, exB, exC, exD] exE
    (some exBias) (some exZone) exSig (by decide)

/-- Counterexample for C6 as stated: a buffer of only 5 valid bars (fewer
than the claimed 15) on which `evaluate` emits a signal. -/
theorem C6_counterexample :
    evaluate 2 [exA, exB, exC, exD] exE (some exBias) (some exZone) = some exSig ∧
    ([exA, exB, exC, exD] ++ [exE]).length < 15 ∧
    (∀ cc ∈ [exA, exB, exC, exD, exE], cc.valid) := by
  refine ⟨by decide, by decide, by decide⟩

/-- C7 (amended: the engine checks the adverse pierce and the absence of an
opposite pierce, but never that the final bar closed back in the bias
direction): every emitted signal had, among the most recent 3 bars, a pierce
beyond the prior extreme in the adverse direction — below the prior low for a
long setup, above the prior high for a short setup — and no pierce beyond the
opposite extreme. -/
theorem C7_sweep_confirmation (rt : ℚ) (prev : List Candle) (c : Candle)
    (b : Option BiasSnapshot) (z : Option StructureZone) (sig : ExecutionSignal)
    (h : evaluate rt prev c b z = some sig) :
    (sig.direction = .long →
      sweepDownFlag (prev ++ [c]) = true ∧ sweepUpFlag (prev ++ [c]) = false) ∧
    (sig.direction = .short →
      sweepUpFlag (prev ++ [c]) = true ∧ sweepDownFlag (prev ++ [c]) = false) := by
  obtain ⟨_, bias, zone, _, _, _, _, hsweep, hdir⟩ :=
    evaluate_some_inv rt prev c b z sig h
  rw [← hdir] at hsweep
  exact detectLiquiditySweep_some (prev ++ [c]) sig.direction hsweep

/-- Witness for C7's amended theorem at the concrete emitting input. -/
theorem C7_sweep_confirmation_witness :
    (exSig.direction = .long →
      sweepDownFlag ([exA, exB, exC, exD] ++ [exE]) = true ∧
      sweepUpFlag ([exA, exB, exC, exD] ++ [exE]) = false) ∧
    (exSig.direction = .short →
      sweepUpFlag ([exA, exB, exC, exD] ++ [exE]) = true ∧
      sweepDownFlag ([exA, exB, exC, exD] ++ [exE]) = false) :=
  C7_sweep_confirmation 2 [exA, exB, exC, exD] exE
    (some exBias) (some exZone) exSig (by decide)

/-- Counterexample for C7 as stated: a signal is emitted for a long setup even
though the final bar of the sweep window closed below its open, i.e. against
the bias direction. -/
theorem C7_counterexample :
    evaluate 2 [exA, exB, exC, exD] exE7 (some exBias) (some exZone) = some exSig ∧
    exSig.direction = .long ∧ exE7.close < exE7.opn ∧
    (∀ cc ∈ [exA, exB, exC, exD, exE7], cc.valid) := by
  refine ⟨by decide, by decide, by decide, by decide⟩


/-! ### Paper broker (`paper_broker.py`) -/

/-- `PaperBroker._compute_pnl`: cash P&L and R-multiple of a close. -/
def computePnl (value_per_point : ℚ) (order : OrderPlan)
    (entry_price exit_price : ℚ) : ℚ × ℚ :=
  let direction : ℤ := if order.direction = .long then 1 else -1
  let move := (exit_price - entry_price) * (direction : ℚ)
  let cash := move * (order.size : ℚ) * value_per_point
  let risk_cash := order.stop_distance * (order.size : ℚ) * value_per_point
  let pnl_r := if risk_cash ≠ 0 then cash / risk_cash else 0
  (cash, pnl_r)

/-- `PaperBroker.close_order`: the emitted close event (logging elided). -/
def close_order (value_per_point : ℚ) (order : OrderPlan) (now : ℤ)
    (event_type : OrderEventType) (exit_price entry_price : ℚ) (reason : String) :
    OrderEvent :=
  let p := computePnl value_per_point order entry_price exit_price
  { timestamp := now, event_type := event_type, price := some exit_price,
    pnl := some p.1, pnl_r := some p.2, reason := some reason }

/-- `PaperBroker._check_exit`: stop tested before target, for both
directions. -/
def checkExit (value_per_point : ℚ) (order : OrderPlan) (candle : Candle) :
    Option OrderEvent :=
  let filled_price := match order.filled_price with | none => order.entry | some fp => fp
  match order.direction with
  | .long =>
    if candle.low ≤ order.stop then
      some (close_order value_per_point order candle.timestamp .sl_hit order.stop filled_price "sl_hit")
    else if candle.high ≥ order.target then
      some (close_order value_per_point order candle.timestamp .tp_hit order.target filled_price "tp_hit")
    else none
  | .short =>
    if candle.high ≥ order.stop then
      some (close_order value_per_point order candle.timestamp .sl_hit order.stop filled_price "sl_hit")
    else if candle.low ≤ order.target then
      some (close_order value_per_point order candle.timestamp .tp_hit order.target filled_price "tp_hit")
    else none

/-- Python truthiness of `order.expires_at and now >= order.expires_at`. -/
def pastExpiry (order : OrderPlan) (now : ℤ) : Bool :=
  match order.expires_at with
  | some e => decide (e ≤ now)
  | none => false

/-- `PaperBroker._crossed_entry`. -/
def crossedEntry (order : OrderPlan) (candle : Candle) : Prop :=
  candle.low ≤ order.entry ∧ order.entry ≤ candle.high

instance (o : OrderPlan) (c : Candle) : Decidable (crossedEntry o c) := by
  unfold crossedEntry; infer_instance

/-- The per-order body of `PaperBroker.process_candle`: WAITING orders expire
or fill; FILLED/MANAGING orders run the exit check; closed orders are never
visited (`active_orders` filters them out). -/
def processCandleOrder (value_per_point : ℚ) (order : OrderPlan) (candle : Candle) :
    Option OrderEvent :=
  if order.state = .waiting then
    if pastExpiry order candle.timestamp then
      some { timestamp := candle.timestamp, event_type := .expired, price := none,
             pnl := none, pnl_r := none, reason := some "expiry" }
    else if crossedEntry order candle then
      some { timestamp := candle.timestamp, event_type := .filled,
             price := some order.entry, pnl := none, pnl_r := none, reason := none }
    else none
  else if order.state = .managing ∨ order.state = .filled then
    checkExit value_per_point order candle
  else none

/-- C8: a FILLED or MANAGING order on a bar whose range touches both the stop
and the target exits at the stop with reason sl_hit, for both directions. -/
theorem C8_stop_checked_before_target (value_per_point : ℚ) (order : OrderPlan)
    (candle : Candle) (hstate : order.state = .filled ∨ order.state = .managing)
    (hs : candle.low ≤ order.stop ∧ order.stop ≤ candle.high)
    (ht : candle.low ≤ order.target ∧ order.target ≤ candle.high) :
    ∃ ev, processCandleOrder value_per_point order candle = some ev ∧
      ev.event_type = .sl_hit ∧ ev.price = some order.stop ∧
      ev.reason = some "sl_hit" := by
  have hw : ¬ order.state = .waiting := by
    rcases hstate with h | h <;> rw [h] <;> simp
  unfold processCandleOrder
  rw [if_neg hw, if_pos (by rcases hstate with h | h <;> rw [h] <;> simp)]
  unfold checkExit
  cases hdir : order.direction
  case long =>
    simp only [hs.1, if_true]
    exact ⟨_, rfl, rfl, rfl, rfl⟩
  case short =>
    have h2 : candle.high ≥ order.stop := hs.2
    simp only [h2, if_true]
    exact ⟨_, rfl, rfl, rfl, rfl⟩

/-- Concrete order for the C8 witness. -/
def w8order : OrderPlan :=
  { direction := .long, entry := 2400, stop := 2395, target := 2410, size := 400,
    expires_at := none, state := .managing, filled_price := some 2400 }

/-- Concrete bar for the C8 witness, spanning both stop and target. -/
def w8candle : Candle :=
  { timestamp := 10, opn := 2400, high := 2415, low := 2390, close := 2396, volume := 0 }

/-- Witness for C8 at a concrete order and bar touching both prices. -/
theorem C8_stop_checked_before_target_witness :
    ∃ ev, processCandleOrder 1 w8order w8candle = some ev ∧
      ev.event_type = .sl_hit ∧ ev.price = some w8order.stop ∧
      ev.reason = some "sl_hit" :=
  C8_stop_checked_before_target 1 w8order w8candle (by decide) (by decide) (by decide)


/-! ### Risk sizing (`risk.py`) -/

/-- Python `int()` truncation toward zero on a rational. -/
def ratTrunc (q : ℚ) : ℤ := q.num.tdiv (q.den : ℤ)

/-- `risk.position_size`. -/
def position_size (risk_per_trade_pct value_per_point equity entry stop : ℚ) : ℤ :=
  let risk_cash := equity * risk_per_trade_pct
  let stop_distance := |entry - stop|
  if stop_distance ≤ 0 then 0
  else max 0 (ratTrunc (risk_cash / (stop_distance * value_per_point)))

/-- The order of the C5 scenario: long, entry 2400, stop 2395, sized by
`position_size` at 2% risk on 100,000 equity, already filled at 2400. -/
def c5order : OrderPlan :=
  { direction := .long, entry := 2400, stop := 2395, target := 2410,
    size := position_size (2/100) 1 100000 2400 2395,
    expires_at := none, state := .filled, filled_price := some 2400 }

/-- C5: with equity 100,000, risk 2%, entry 2400, stop 2395 and value-per-point
1 the computed size is exactly 400, and any bar whose low touches 2395 exits
the resulting long order at the stop with cash P&L −2000 and R-multiple −1. -/
theorem C5_size_400_and_sl_exit (candle : Candle) (hlow : candle.low ≤ 2395) :
    position_size (2/100) 1 100000 2400 2395 = 400 ∧
    ∃ ev, processCandleOrder 1 c5order candle = some ev ∧
      ev.event_type = .sl_hit ∧ ev.price = some (2395:ℚ) ∧
      ev.pnl = some (-2000) ∧ ev.pnl_r = some (-1) ∧ ev.reason = some "sl_hit" := by
  refine ⟨by decide, ?_⟩
  unfold processCandleOrder
  rw [if_neg (by decide), if_pos (by decide)]
  unfold checkExit
  simp only [c5order, hlow, if_true]
  exact ⟨_, rfl, rfl, rfl, rfl, rfl, rfl⟩

/-- The bar of the C5 scenario, with low exactly at the stop. -/
def c5candle : Candle :=
  { timestamp := 10, opn := 2398, high := 2399, low := 2395, close := 2396, volume := 0 }

/-- Witness for C5 at the concrete bar touching the stop. -/
theorem C5_size_400_and_sl_exit_witness :
    position_size (2/100) 1 100000 2400 2395 = 400 ∧
    ∃ ev, processCandleOrder 1 c5order c5candle = some ev ∧
      ev.event_type = .sl_hit ∧ ev.price = some (2395:ℚ) ∧
      ev.pnl = some (-2000) ∧ ev.pnl_r = some (-1) ∧ ev.reason = some "sl_hit" :=
  C5_size_400_and_sl_exit c5candle (by decide)


/-! ### ICT utilities used by the structure engine (`ict_utils.py`) -/

/-- `ict_utils.FVG`. -/
structure FVG where
  direction : TradeDirection
  low : ℚ
  high : ℚ
  displacement : ℚ
  start_index : ℕ
  end_index : ℕ
deriving DecidableEq, Repr

/-- `ict_utils.dealing_range`: extremes over the last `lookback` candles. -/
def dealing_range (candles : List Candle) (lookback : ℕ) : ℚ × ℚ :=
  let window := lastN lookback candles
  ((maxList (window.map Candle.high)).getD 0, (minList (window.map Candle.low)).getD 0)

/-- `ict_utils.fibonacci_zone`: the 62%–79% retracement band, with the
source's direction-dependent ordering of the returned pair. -/
def fibonacci_zone (high low : ℚ) (direction : TradeDirection) : ℚ × ℚ :=
  let range_size := high - low
  if range_size ≤ 0 then (high, low)
  else
    match direction with
    | .long =>
      let zone_high := low + range_size * (62/100)
      let zone_low := low + range_size * (79/100)
      (min zone_high zone_low, max zone_high zone_low)
    | .short =>
      let zone_low := high - range_size * (62/100)
      let zone_high := high - range_size * (79/100)
      (max zone_high zone_low, min zone_high zone_low)

/-- `ict_utils.detect_fvg`: the most recent three-candle fair value gap
aligned with `direction`. -/
def detect_fvg (candles : List Candle) (direction : TradeDirection) : Option FVG :=
  if candles.length < 3 then none
  else
    match lastN 3 candles with
    | [c1, c2, c3] =>
      match direction with
      | .long =>
        let gap_low := max c1.high c2.high
        let gap_high := min c2.low c3.low
        if gap_low ≥ gap_high then none
        else
          let displacement := c2.close - c2.opn
          if displacement ≤ 0 then none
          else some { direction := direction, low := gap_low, high := gap_high,
                      displacement := displacement,
                      start_index := candles.length - 3, end_index := candles.length - 1 }
      | .short =>
        let gap_high := min c1.low c2.low
        let gap_low := max c2.high c3.high
        if gap_high ≤ gap_low then none
        else
          let displacement := c2.opn - c2.close
          if displacement ≤ 0 then none
          else some { direction := direction, low := gap_low, high := gap_high,
                      displacement := displacement,
                      start_index := candles.length - 3, end_index := candles.length - 1 }
    | _ => none

/-- The zone bounds computed by `StructureEngine.update` (store, guard and
expiry bookkeeping elided): the fibonacci band, widened to cover a detected
FVG. -/
def structureZoneBounds (lookback : ℕ) (candles : List Candle)
    (direction : TradeDirection) : ℚ × ℚ :=
  let hl := dealing_range candles (min lookback candles.length)
  let z := fibonacci_zone hl.1 hl.2 direction
  let z2 :=
    match detect_fvg candles direction with
    | some f => (min z.1 f.low, max z.2 f.high)
    | none => z
  (min z2.1 z2.2, max z2.1 z2.2)

/-- Helper: a valid middle candle makes the gap condition unsatisfiable. -/
theorem detect_fvg_eq_none (candles : List Candle) (direction : TradeDirection)
    (hv : ∀ c ∈ candles, c.valid) : detect_fvg candles direction = none := by
  unfold detect_fvg
  split
  · rfl
  next hlen =>
    split
    next c1 c2 c3 heq =>
      have hc2 : c2 ∈ candles := by
        have hm : c2 ∈ lastN 3 candles := by rw [heq]; simp
        exact List.drop_subset _ _ hm
      obtain ⟨h1, h2⟩ := hv c2 hc2
      have hlh : c2.low ≤ c2.high :=
        le_trans (le_trans h2 (min_le_left _ _)) (le_trans (le_max_left _ _) h1)
      cases direction
      case long =>
        have hge : min c2.low c3.low ≤ max c1.high c2.high :=
          le_trans (le_trans (min_le_left _ _) hlh) (le_max_right _ _)
        simp [hge]
      case short =>
        have hge : min c1.low c2.low ≤ max c2.high c3.high :=
          le_trans (le_trans (min_le_right _ _) hlh) (le_max_left _ _)
        simp [hge]
    next => rfl

/-- C10: for candle sequences satisfying the bar invariant, `detect_fvg`
returns nothing for either direction (its gap condition is unsatisfiable for
a valid middle bar), so `StructureEngine.update` never widens the fibonacci
band to cover a gap. -/
theorem C10_detect_fvg_dead_code (lookback : ℕ) (candles : List Candle)
    (direction : TradeDirection) (hv : ∀ c ∈ candles, c.valid) :
    detect_fvg candles direction = none ∧
    structureZoneBounds lookback candles direction =
      (min (fibonacci_zone (dealing_range candles (min lookback candles.length)).1
              (dealing_range candles (min lookback candles.length)).2 direction).1
           (fibonacci_zone (dealing_range candles (min lookback candles.length)).1
              (dealing_range candles (min lookback candles.length)).2 direction).2,
       max (fibonacci_zone (dealing_range candles (min lookback candles.length)).1
              (dealing_range candles (min lookback candles.length)).2 direction).1
           (fibonacci_zone (dealing_range candles (min lookback candles.length)).1
              (dealing_range candles (min lookback candles.length)).2 direction).2) := by
  have h := detect_fvg_eq_none candles direction hv
  refine ⟨h, ?_⟩
  unfold structureZoneBounds
  rw [h]

/-- Witness for C10 on three concrete valid bars. -/
theorem C10_detect_fvg_dead_code_witness :
    detect_fvg [exA, exB, exC] .long = none ∧
    structureZoneBounds 40 [exA, exB, exC] .long =
      (min (fibonacci_zone (dealing_range [exA, exB, exC] (min 40 ([exA, exB, exC] : List Candle).length)).1
              (dealing_range [exA, exB, exC] (min 40 ([exA, exB, exC] : List Candle).length)).2 .long).1
           (fibonacci_zone (dealing_range [exA, exB, exC] (min 40 ([exA, exB, exC] : List Candle).length)).1
              (dealing_range [exA, exB, exC] (min 40 ([exA, exB, exC] : List Candle).length)).2 .long).2,
       max (fibonacci_zone (dealing_range [exA, exB, exC] (min 40 ([exA, exB, exC] : List Candle).length)).1
              (dealing_range [exA, exB, exC] (min 40 ([exA, exB, exC] : List Candle).length)).2 .long).1
           (fibonacci_zone (dealing_range [exA, exB, exC] (min 40 ([exA, exB, exC] : List Candle).length)).1
              (dealing_range [exA, exB, exC] (min 40 ([exA, exB, exC] : List Candle).length)).2 .long).2) :=
  C10_detect_fvg_dead_code 40 [exA, exB, exC] .long (by decide)


/-! ### Timeframe aggregation (`data_sources.CandleBucket`) -/

/-- `ict_utils.floor_time` on an epoch timestamp (seconds), for a timeframe
`minutes` minutes long; Python `%` on ints is the Euclidean remainder, as is
Lean's `%` on `ℤ`. -/
def floor_time (minutes : ℤ) (t : ℤ) : ℤ :=
  let seconds := minutes * 60
  t - t % seconds

/-- The accumulator fields of a non-empty `data_sources.CandleBucket`. -/
structure BucketState where
  start : ℤ
  opn : ℚ
  high : ℚ
  low : ℚ
  close : ℚ
  volume : ℚ
deriving DecidableEq, Repr

/-- The seeding branch of `CandleBucket.update` (bucket was empty). -/
def bucketSeed (minutes : ℤ) (c : Candle) : BucketState :=
  { start := floor_time minutes c.timestamp, opn := c.opn, high := c.high,
    low := c.low, close := c.close, volume := c.volume }

/-- `CandleBucket.update` on a non-empty bucket: emit the finished bar and
reseed when the floored period advances, otherwise accumulate
high/low/close/volume. -/
def bucketUpdate (minutes : ℤ) (b : BucketState) (c : Candle) :
    Option Candle × BucketState :=
  let period_start := floor_time minutes c.timestamp
  if period_start ≠ b.start then
    (some { timestamp := b.start, opn := b.opn, high := b.high, low := b.low,
            close := b.close, volume := b.volume },
     { start := period_start, opn := c.opn, high := c.high, low := c.low,
       close := c.close, volume := c.volume })
  else
    (none, { b with
      high := max b.high c.high, low := min b.low c.low,
      close := c.close, volume := b.volume + c.volume })

/-- Feeding a bar list through `bucketUpdate`, collecting emitted bars. -/
def bucketRun (minutes : ℤ) (b : BucketState) (cs : List Candle) :
    List Candle × BucketState :=
  match cs with
  | [] => ([], b)
  | c :: rest =>
    let step := bucketUpdate minutes b c
    let rec_ := bucketRun minutes step.2 rest
    (match step.1 with | some oc => oc :: rec_.1 | none => rec_.1, rec_.2)

/-- Helper: bars of the bucket's current period accumulate componentwise and
emit nothing. -/
theorem bucketRun_same_period (minutes : ℤ) (cs : List Candle) :
    ∀ (b : BucketState),
    (∀ c ∈ cs, floor_time minutes c.timestamp = b.start) →
    bucketRun minutes b cs =
      ([], { start := b.start, opn := b.opn,
             high := (cs.map Candle.high).foldl max b.high,
             low := (cs.map Candle.low).foldl min b.low,
             close := (cs.map Candle.close).getLastD b.close,
             volume := b.volume + (cs.map Candle.volume).sum }) := by
  induction cs with
  | nil =>
    intro b _
    simp [bucketRun]
  | cons c rest ih =>
    intro b hsame
    have hc : floor_time minutes c.timestamp = b.start := hsame c (by simp)
    have hstep : bucketUpdate minutes b c =
        (none, { b with
          high := max b.high c.high, low := min b.low c.low,
          close := c.close, volume := b.volume + c.volume }) := by
      unfold bucketUpdate
      rw [if_neg (by simp [hc])]
    have hrest : ∀ x ∈ rest, floor_time minutes x.timestamp =
        ({ b with
          high := max b.high c.high, low := min b.low c.low,
          close := c.close, volume := b.volume + c.volume } : BucketState).start := by
      intro x hx
      exact hsame x (by simp [hx])
    have h1 : bucketRun minutes b (c :: rest) =
        bucketRun minutes ({ b with
          high := max b.high c.high, low := min b.low c.low,
          close := c.close, volume := b.volume + c.volume }) rest := by
      conv_lhs => rw [bucketRun]
      rw [hstep]
    rw [h1, ih _ hrest]
    simp only [List.map_cons, List.foldl_cons, List.getLastD_cons, List.sum_cons, add_assoc]


/-- C9: a run of base bars in one floored period emits nothing, and the bar
emitted when the period advances carries the sum of the run volumes, the max
of highs, the min of lows, the first open and the last close, stamped with
the floored period start. -/
theorem C9_aggregated_bar_components (minutes : ℤ) (first : Candle)
    (rest : List Candle) (nxt : Candle)
    (hsame : ∀ c ∈ rest, floor_time minutes c.timestamp = floor_time minutes first.timestamp)
    (hnew : floor_time minutes nxt.timestamp ≠ floor_time minutes first.timestamp) :
    (bucketRun minutes (bucketSeed minutes first) rest).1 = [] ∧
    ∃ out,
      (bucketUpdate minutes (bucketRun minutes (bucketSeed minutes first) rest).2 nxt).1 = some out ∧
      out.volume = first.volume + (rest.map Candle.volume).sum ∧
      out.high = (rest.map Candle.high).foldl max first.high ∧
      out.low = (rest.map Candle.low).foldl min first.low ∧
      out.opn = first.opn ∧
      out.close = (rest.map Candle.close).getLastD first.close ∧
      out.timestamp = floor_time minutes first.timestamp := by
  have hrun := bucketRun_same_period minutes rest (bucketSeed minutes first)
    (fun c hcm => hsame c hcm)
  rw [hrun]
  refine ⟨rfl, ?_⟩
  simp only [bucketUpdate, bucketSeed]
  rw [if_pos hnew]
  exact ⟨_, rfl, rfl, rfl, rfl, rfl, rfl, rfl⟩


/-- Base bars of the C9 witness run (5-minute bucket, period 300 s). -/
def aggFirst : Candle := { timestamp := 0, opn := 10, high := 12, low := 9, close := 11, volume := 5 }

/-- Second bar of the witness run. -/
def aggR1 : Candle := { timestamp := 60, opn := 11, high := 13, low := 8, close := 12, volume := 7 }

/-- Third bar of the witness run. -/
def aggR2 : Candle := { timestamp := 120, opn := 12, high := 14, low := 10, close := 13, volume := 8 }

/-- First bar of the next period. -/
def aggNext : Candle := { timestamp := 300, opn := 13, high := 14, low := 12, close := 13, volume := 2 }

/-- Witness for C9 on the concrete 5-minute run. -/
theorem C9_aggregated_bar_components_witness :
    (bucketRun 5 (bucketSeed 5 aggFirst) [aggR1, aggR2]).1 = [] ∧
    ∃ out,
      (bucketUpdate 5 (bucketRun 5 (bucketSeed 5 aggFirst) [aggR1, aggR2]).2 aggNext).1 = some out ∧
      out.volume = aggFirst.volume + ([aggR1, aggR2].map Candle.volume).sum ∧
      out.high = ([aggR1, aggR2].map Candle.high).foldl max aggFirst.high ∧
      out.low = ([aggR1, aggR2].map Candle.low).foldl min aggFirst.low ∧
      out.opn = aggFirst.opn ∧
      out.close = ([aggR1, aggR2].map Candle.close).getLastD aggFirst.close ∧
      out.timestamp = floor_time 5 aggFirst.timestamp :=
  C9_aggregated_bar_components 5 aggFirst [aggR1, aggR2] aggNext (by decide) (by decide)


/-! ### Supervisor and account (`supervisor.py`, `risk.py`, `config.py`,
`sessions.py`)

A Python `datetime` is modelled by the four quantities the supervisor
inspects: the epoch instant in minutes (news blackout distances), the
calendar-day index (`.date()` comparisons), the New York local time of day in
minutes (session windows) and the ISO week index. -/

/-- The `datetime` quantities read by the supervisor. -/
structure Dt where
  epochMin : ℤ
  day : ℤ
  todMin : ℤ
  isoWeek : ℤ
deriving DecidableEq, Repr

/-- `config.SessionWindow` with start/end as NY time-of-day minutes
(`end` is a Lean keyword, hence `end_`). -/
structure SessionWindow where
  start : ℤ
  end_ : ℤ
deriving DecidableEq, Repr

/-- `config.RiskConfig` with its source defaults. -/
structure RiskConfig where
  risk_per_trade_pct : ℚ := 2/100
  max_daily_drawdown_pct : ℚ := 6/100
  max_weekly_drawdown_pct : ℚ := 1/10
  max_trades_per_day : ℤ := 4
  max_concurrent_positions : ℤ := 1
  rr_target : ℚ := 2
  time_stop_bars : ℤ := 20
  expiry_minutes : ℤ := 30
deriving DecidableEq, Repr

/-- The fields of `config.AgentConfig` the supervisor reads; `sessions` is the
already-enabled session list (`default_config` enables every default
session). -/
structure AgentConfig where
  value_per_point : ℚ := 1
  sessions : List SessionWindow := []
  risk : RiskConfig := {}
  news_halt_minutes : ℤ := 5
  news_events : List ℤ := []
deriving DecidableEq, Repr

/-- `config.DEFAULT_SESSIONS`: London 02:00–05:00, NY AM 10:00–11:00, NY PM
14:00–15:00, in NY-local minutes. -/
def DEFAULT_SESSIONS : List SessionWindow :=
  [{ start := 120, end_ := 300 }, { start := 600, end_ := 660 }, { start := 840, end_ := 900 }]

/-- `config.default_config` restricted to the supervisor-relevant fields. -/
def default_config : AgentConfig := { sessions := DEFAULT_SESSIONS }

/-- `risk.AccountState`. -/
structure AccountState where
  equity : ℚ
  starting_equity : ℚ
  daily_pnl : ℚ := 0
  weekly_pnl : ℚ := 0
  closed_pnl : ℚ := 0
  trades_today : ℤ := 0
  max_equity : ℚ
  min_equity : ℚ
  max_drawdown : ℚ := 0
  last_daily_reset : Option Dt := none
  last_weekly_reset : Option Dt := none
deriving DecidableEq, Repr

/-- `AccountState.reset_daily`. -/
def AccountState.reset_daily (a : AccountState) (when : Dt) : AccountState :=
  { a with daily_pnl := 0, trades_today := 0, last_daily_reset := some when }

/-- `AccountState.reset_weekly`. -/
def AccountState.reset_weekly (a : AccountState) (when : Dt) : AccountState :=
  { a with weekly_pnl := 0, last_weekly_reset := some when }

/-- `AccountState.apply_trade_result` (its `when` argument is unused in the
source body and dropped here). -/
def AccountState.apply_trade_result (a : AccountState) (pnl_cash : ℚ) : AccountState :=
  let equity := a.equity + pnl_cash
  let max_equity := max a.max_equity equity
  { a with
    equity := equity, closed_pnl := a.closed_pnl + pnl_cash,
    daily_pnl := a.daily_pnl + pnl_cash, weekly_pnl := a.weekly_pnl + pnl_cash,
    max_equity := max_equity, min_equity := min a.min_equity equity,
    max_drawdown := max a.max_drawdown (max_equity - equity),
    trades_today := a.trades_today + 1 }

/-- The supervisor's mutable state: halt flag/reason plus the shared account. -/
structure SupState where
  halted : Bool := false
  halt_reason : Option String := none
  account : AccountState
deriving DecidableEq, Repr

/-- `Supervisor._maybe_reset`: daily reset (clearing any halt) on a calendar
day change, weekly reset on an ISO week change. -/
def maybeReset (s : SupState) (now : Dt) : SupState :=
  let s1 :=
    if (match s.account.last_daily_reset with
        | none => true
        | some d => decide (now.day ≠ d.day)) then
      { s with account := s.account.reset_daily now, halted := false, halt_reason := none }
    else s
  if (match s1.account.last_weekly_reset with
      | none => true
      | some d => decide (d.isoWeek ≠ now.isoWeek)) then
    { s1 with account := s1.account.reset_weekly now }
  else s1

/-- `Supervisor._in_news_blackout`. -/
def inNewsBlackout (cfg : AgentConfig) (now : Dt) : Bool :=
  cfg.news_events.any fun e => decide (|e - now.epochMin| ≤ cfg.news_halt_minutes)

/-- `sessions.current_session`: the first enabled window containing the NY
time of day. -/
def current_session (now : Dt) (sessions : List SessionWindow) : Option SessionWindow :=
  sessions.find? fun w => decide (w.start ≤ now.todMin ∧ now.todMin ≤ w.end_)

/-- `Supervisor.halt`. -/
def haltSup (s : SupState) (reason : String) : SupState :=
  { s with halted := true, halt_reason := some reason }

/-- `Supervisor.can_trade`, returning the decision and the updated state. -/
def can_trade (cfg : AgentConfig) (s0 : SupState) (now : Dt) : Bool × SupState :=
  let s := maybeReset s0 now
  if s.halted then (false, s)
  else if inNewsBlackout cfg now then (false, s)
  else if (current_session now cfg.sessions).isNone then (false, s)
  else if s.account.trades_today ≥ cfg.risk.max_trades_per_day then
    (false, haltSup s "Max trades reached")
  else if -s.account.daily_pnl ≥ s.account.starting_equity * cfg.risk.max_daily_drawdown_pct then
    (false, haltSup s "Daily drawdown limit reached")
  else if -s.account.weekly_pnl ≥ s.account.starting_equity * cfg.risk.max_weekly_drawdown_pct then
    (false, haltSup s "Weekly drawdown limit reached")
  else (true, s)


/-- Helper: a same-day call leaves halt flag and daily counters untouched. -/
theorem maybeReset_same_day (s : SupState) (now : Dt)
    (hday : ∃ d, s.account.last_daily_reset = some d ∧ d.day = now.day) :
    (maybeReset s now).halted = s.halted ∧
    (maybeReset s now).account.daily_pnl = s.account.daily_pnl ∧
    (maybeReset s now).account.trades_today = s.account.trades_today ∧
    (maybeReset s now).account.starting_equity = s.account.starting_equity := by
  obtain ⟨d, hd, hdd⟩ := hday
  have hcond : (match s.account.last_daily_reset with
      | none => true
      | some x => decide (now.day ≠ x.day)) = false := by
    rw [hd]; simp [hdd]
  unfold maybeReset
  rw [hcond]
  simp only [Bool.false_eq_true, if_false]
  split <;> simp [AccountState.reset_weekly]

/-- Helper: a new-day call clears the halt and zeroes the daily counters,
changing the weekly P&L at most to zero. -/
theorem maybeReset_new_day (s : SupState) (now : Dt)
    (hnd : ∀ d, s.account.last_daily_reset = some d → ¬ d.day = now.day) :
    (maybeReset s now).halted = false ∧
    (maybeReset s now).account.daily_pnl = 0 ∧
    (maybeReset s now).account.trades_today = 0 ∧
    (maybeReset s now).account.starting_equity = s.account.starting_equity ∧
    ((maybeReset s now).account.weekly_pnl = s.account.weekly_pnl ∨
      (maybeReset s now).account.weekly_pnl = 0) := by
  have hcond : (match s.account.last_daily_reset with
      | none => true
      | some d => decide (now.day ≠ d.day)) = true := by
    cases hld : s.account.last_daily_reset with
    | none => rfl
    | some d =>
      have := hnd d hld
      simp only [decide_eq_true_eq]
      intro h
      exact this h.symm
  unfold maybeReset
  rw [hcond]
  simp only [if_true]
  split <;> simp [AccountState.reset_weekly, AccountState.reset_daily]


/-- C4 (amended: the drawdown check runs after the halt/news/session/trade
gates, so the universal claim holds only for same-day calls that are not
news-blocked and fall inside a session window — there either the trade-count
gate or the daily drawdown gate records a halt; a same-day call in a news
blackout or outside every session window returns false with the halt flag
unchanged, recording no halt): with the default configuration (daily limit
6%) and starting equity 100,000, daily P&L at or below −6,000 forces
`can_trade` to return false with a halt recorded whenever the call is
same-day, not news-blocked and in-session; news/session-blocked same-day
calls return false without touching the halt flag; and the first call of a
new calendar day clears the halt and zeroes the daily P&L and trades-today
counters (staying cleared provided the weekly limit is not itself
breached). -/
theorem C4_daily_drawdown_halt_and_reset (s : SupState) (now : Dt)
    (hstart : s.account.starting_equity = 100000) :
    ((s.account.daily_pnl ≤ -6000 ∧
      (∃ d, s.account.last_daily_reset = some d ∧ d.day = now.day) ∧
      inNewsBlackout default_config now = false ∧
      (current_session now default_config.sessions).isSome = true) →
      (can_trade default_config s now).1 = false ∧
      (can_trade default_config s now).2.halted = true) ∧
    (((∃ d, s.account.last_daily_reset = some d ∧ d.day = now.day) ∧
      (inNewsBlackout default_config now = true ∨
        (current_session now default_config.sessions).isNone = true)) →
      (can_trade default_config s now).1 = false ∧
      (can_trade default_config s now).2.halted = s.halted) ∧
    (((∀ d, s.account.last_daily_reset = some d → ¬ d.day = now.day) ∧
      -10000 < s.account.weekly_pnl) →
      (can_trade default_config s now).2.halted = false ∧
      (can_trade default_config s now).2.account.daily_pnl = 0 ∧
      (can_trade default_config s now).2.account.trades_today = 0) := by
  refine ⟨?_, ?_, ?_⟩
  · rintro ⟨hpnl, hday, hnews, hsess⟩
    obtain ⟨hh, hdp, htt, hse⟩ := maybeReset_same_day s now hday
    unfold can_trade
    cases hhc : (maybeReset s now).halted with
    | true => simp [hhc]
    | false =>
      have hsn : (current_session now default_config.sessions).isNone = false := by
        cases hcs : current_session now default_config.sessions
        · rw [hcs] at hsess; simp at hsess
        · simp [hcs]
      have hdpc : -(maybeReset s now).account.daily_pnl ≥
          (maybeReset s now).account.starting_equity *
            default_config.risk.max_daily_drawdown_pct := by
        rw [hdp, hse, hstart]
        show -s.account.daily_pnl ≥ 100000 * (6/100 : ℚ)
        have h6 : (100000 * (6/100 : ℚ)) = 6000 := by decide
        rw [h6]
        linarith
      by_cases htc : (maybeReset s now).account.trades_today ≥
          default_config.risk.max_trades_per_day
      · simp only [hhc, Bool.false_eq_true, if_false, hnews, hsn, if_pos htc]
        simp [haltSup]
      · simp only [hhc, Bool.false_eq_true, if_false, hnews, hsn,
          if_neg htc, if_pos hdpc]
        simp [haltSup]
  · rintro ⟨hday, hblock⟩
    obtain ⟨hh, _, _, _⟩ := maybeReset_same_day s now hday
    unfold can_trade
    cases hhc : (maybeReset s now).halted with
    | true =>
      simp only [hhc, if_true]
      exact ⟨trivial, hhc ▸ hh⟩
    | false =>
      rcases hblock with hb | hb
      · simp only [hhc, Bool.false_eq_true, if_false, hb, if_true]
        exact ⟨trivial, hhc ▸ hh⟩
      · cases hnc : inNewsBlackout default_config now with
        | true =>
          simp only [hhc, Bool.false_eq_true, if_false, hnc, if_true]
          exact ⟨trivial, hhc ▸ hh⟩
        | false =>
          simp only [hhc, Bool.false_eq_true, if_false, hnc, hb, if_true]
          exact ⟨trivial, hhc ▸ hh⟩
  · rintro ⟨hnd, hw⟩
    obtain ⟨hh, hdp, htt, hse, hwk⟩ := maybeReset_new_day s now hnd
    unfold can_trade
    simp only [hh, Bool.false_eq_true, if_false]
    cases hnc : inNewsBlackout default_config now with
    | true => simp [hh, hdp, htt]
    | false =>
      cases hsn : (current_session now default_config.sessions).isNone with
      | true => simp [hh, hdp, htt]
      | false =>
        have htrc : ¬ (maybeReset s now).account.trades_today ≥
            default_config.risk.max_trades_per_day := by
          rw [htt]
          show ¬ (0:ℤ) ≥ 4
          omega
        have hdpc : ¬ -(maybeReset s now).account.daily_pnl ≥
            (maybeReset s now).account.starting_equity *
              default_config.risk.max_daily_drawdown_pct := by
          rw [hdp, hse, hstart]
          show ¬ -(0:ℚ) ≥ 100000 * (6/100 : ℚ)
          have h6 : (100000 * (6/100 : ℚ)) = 6000 := by decide
          rw [h6]
          norm_num
        have hwkc : ¬ -(maybeReset s now).account.weekly_pnl ≥
            (maybeReset s now).account.starting_equity *
              default_config.risk.max_weekly_drawdown_pct := by
          rw [hse, hstart]
          have h10 : (100000 * (1/10 : ℚ)) = 10000 := by decide
          show ¬ -(maybeReset s now).account.weekly_pnl ≥ 100000 * (1/10 : ℚ)
          rw [h10]
          rcases hwk with h | h <;> rw [h] <;> linarith
        simp only [Bool.false_eq_true, if_false, if_neg htrc, if_neg hdpc, if_neg hwkc]
        exact ⟨hh, hdp, htt⟩

/-- Last reset instant of the C4 scenario (start of day 0, ISO week 1). -/
def c4reset : Dt := { epochMin := 0, day := 0, todMin := 0, isoWeek := 1 }

/-- C4 scenario account: starting equity 100,000, daily P&L −6,000. -/
def c4acct : AccountState :=
  { equity := 94000, starting_equity := 100000, daily_pnl := -6000,
    weekly_pnl := -6000, closed_pnl := -6000, trades_today := 1,
    max_equity := 100000, min_equity := 94000, max_drawdown := 6000,
    last_daily_reset := some c4reset, last_weekly_reset := some c4reset }

/-- C4 scenario supervisor state, not yet halted. -/
def c4state : SupState := { halted := false, halt_reason := none, account := c4acct }

/-- A same-day instant inside the NY AM session window. -/
def c4nowInSession : Dt := { epochMin := 600, day := 0, todMin := 600, isoWeek := 1 }

/-- A same-day instant outside every session window. -/
def c4nowOutOfSession : Dt := { epochMin := 30, day := 0, todMin := 30, isoWeek := 1 }
/-- Witness for C4's amended theorem at the concrete scenario state. -/
theorem C4_daily_drawdown_halt_and_reset_witness :
    ((c4state.account.daily_pnl ≤ -6000 ∧
      (∃ d, c4state.account.last_daily_reset = some d ∧ d.day = c4nowInSession.day) ∧
      inNewsBlackout default_config c4nowInSession = false ∧
      (current_session c4nowInSession default_config.sessions).isSome = true) →
      (can_trade default_config c4state c4nowInSession).1 = false ∧
      (can_trade default_config c4state c4nowInSession).2.halted = true) ∧
    (((∃ d, c4state.account.last_daily_reset = some d ∧ d.day = c4nowInSession.day) ∧
      (inNewsBlackout default_config c4nowInSession = true ∨
        (current_session c4nowInSession default_config.sessions).isNone = true)) →
      (can_trade default_config c4state c4nowInSession).1 = false ∧
      (can_trade default_config c4state c4nowInSession).2.halted = c4state.halted) ∧
    (((∀ d, c4state.account.last_daily_reset = some d → ¬ d.day = c4nowInSession.day) ∧
      -10000 < c4state.account.weekly_pnl) →
      (can_trade default_config c4state c4nowInSession).2.halted = false ∧
      (can_trade default_config c4state c4nowInSession).2.account.daily_pnl = 0 ∧
      (can_trade default_config c4state c4nowInSession).2.account.trades_today = 0) :=
  C4_daily_drawdown_halt_and_reset c4state c4nowInSession (by decide)

/-- Counterexample for C4 as stated: with daily P&L exactly −6,000, a
same-day call outside every session window returns false without recording
any halt. -/
theorem C4_counterexample :
    c4state.account.daily_pnl ≤ -6000 ∧
    (can_trade default_config c4state c4nowOutOfSession).1 = false ∧
    (can_trade default_config c4state c4nowOutOfSession).2.halted = false := by
  refine ⟨by decide, by decide, by decide⟩


/-! ### Order lifecycle (`order_manager.py`, `paper_broker.py`,
`supervisor.py`, `state_store.py`) -/

/-- The state written by `OrderManager.handle_event` for each event type
(`StateStore.update_order_state` overwrites the state unconditionally);
PLACED maps to WAITING, FILLED to FILLED, TP_HIT/SL_HIT/TIME_STOP to EXIT and
EXPIRED/CANCELLED both to CANCELLED. -/
def handleEventState (e : OrderEventType) : TradeState :=
  match e with
  | .placed => .waiting
  | .filled => .filled
  | .tp_hit => .exit
  | .sl_hit => .exit
  | .time_stop => .exit
  | .expired => .cancelled
  | .cancelled => .cancelled

/-- The events the wired operations can emit for an order in a given state,
transcribed from the source guards:
* `PaperBroker.place_order` emits PLACED for a freshly registered WAITING
  order;
* `PaperBroker.process_candle` visits only `StateStore.active_orders` (state
  neither EXIT nor CANCELLED) and emits EXPIRED or FILLED for WAITING orders
  and SL_HIT or TP_HIT (via `_check_exit`) for FILLED/MANAGING orders;
* `OrderManager.enforce_time_stop` emits TIME_STOP only for orders found by
  `orders_by_state({FILLED, MANAGING})`;
* `Supervisor.handle_bias_snapshot` iterates `active_orders`, cancelling
  WAITING opposers through `PaperBroker.cancel_order` (itself guarded against
  CANCELLED/EXIT) and force-closing FILLED/MANAGING opposers with a CANCELLED
  event built by `close_order`.
The never-called `OrderManager.cancel_order` helper is not part of the wired
pipeline and is not modelled. -/
inductive emits : TradeState → OrderEventType → Prop
  | place : emits .waiting .placed
  | expire : emits .waiting .expired
  | fill : emits .waiting .filled
  | sl_exit (s : TradeState) : s = .filled ∨ s = .managing → emits s .sl_hit
  | tp_exit (s : TradeState) : s = .filled ∨ s = .managing → emits s .tp_hit
  | time_exit (s : TradeState) : s = .filled ∨ s = .managing → emits s .time_stop
  | cancel_waiting : emits .waiting .cancelled
  | bias_flip_close (s : TradeState) : s = .filled ∨ s = .managing → emits s .cancelled

/-- One observable state change of an order: an emitted event processed
through `OrderManager.handle_event`, or the direct FILLED→MANAGING promotion
inside `OrderManager.enforce_time_stop`. -/
inductive Step : TradeState → TradeState → Prop
  | event (s : TradeState) (e : OrderEventType) : emits s e → Step s (handleEventState e)
  | promote : Step .filled .managing

/-- The transitions asserted by the claim: along WAITING→FILLED→MANAGING→EXIT
or WAITING→CANCELLED/EXPIRED (the state enum has no EXPIRED member; expiry is
recorded as CANCELLED), with self-loops allowed. -/
def claimedTransition (s t : TradeState) : Bool :=
  decide (s = t) ||
  match s, t with
  | .waiting, .filled => true
  | .filled, .managing => true
  | .managing, .exit => true
  | .waiting, .cancelled => true
  | _, _ => false

/-- The transitions the code actually produces: the claimed ones plus direct
FILLED→EXIT exits and the bias-flip force-closes FILLED→CANCELLED and
MANAGING→CANCELLED. -/
def codeTransition (s t : TradeState) : Bool :=
  claimedTransition s t ||
  match s, t with
  | .filled, .exit => true
  | .filled, .cancelled => true
  | .managing, .cancelled => true
  | _, _ => false

/-- C1 (amended: a bias flip can also force FILLED/MANAGING orders to
CANCELLED, and a FILLED order can exit without passing through MANAGING):
every observable transition lies in the code's transition set, and no
operation ever moves an order already in EXIT or CANCELLED. -/
theorem C1_lifecycle_transitions (s t : TradeState) (h : Step s t) :
    codeTransition s t = true ∧ s ≠ .exit ∧ s ≠ .cancelled := by
  cases h with
  | promote => exact ⟨by decide, by decide, by decide⟩
  | event s e he =>
    cases he with
    | place => exact ⟨by decide, by decide, by decide⟩
    | expire => exact ⟨by decide, by decide, by decide⟩
    | fill => exact ⟨by decide, by decide, by decide⟩
    | cancel_waiting => exact ⟨by decide, by decide, by decide⟩
    | sl_exit s hs => rcases hs with h | h <;> subst h <;> exact ⟨by decide, by decide, by decide⟩
    | tp_exit s hs => rcases hs with h | h <;> subst h <;> exact ⟨by decide, by decide, by decide⟩
    | time_exit s hs => rcases hs with h | h <;> subst h <;> exact ⟨by decide, by decide, by decide⟩
    | bias_flip_close s hs => rcases hs with h | h <;> subst h <;> exact ⟨by decide, by decide, by decide⟩

/-- Witness for C1's amended theorem: the WAITING→FILLED step. -/
theorem C1_lifecycle_transitions_witness :
    codeTransition .waiting .filled = true ∧
    TradeState.waiting ≠ .exit ∧ TradeState.waiting ≠ .cancelled :=
  C1_lifecycle_transitions .waiting .filled (Step.event .waiting .filled emits.fill)

/-- Counterexample for C1 as stated: a bias flip on a FILLED order produces
the observable transition FILLED→CANCELLED, which lies on neither claimed
chain. -/
theorem C1_counterexample :
    Step .filled .cancelled ∧ claimedTransition .filled .cancelled = false :=
  ⟨Step.event .filled .cancelled (emits.bias_flip_close .filled (Or.inl rfl)), by decide⟩


/-! ### Event processing and trade statistics (`order_manager.py`,
`trading_agent.py`, `trade_logger.py`) -/

/-- The realized-P&L component `OrderManager.handle_event` hands back to the
agent: the TP_HIT/SL_HIT/TIME_STOP branch and the EXPIRED/CANCELLED branch
both return the event's pnl; PLACED and FILLED return nothing. -/
def handleEventPnl (e : OrderEventType) (pnl : Option ℚ) : Option ℚ :=
  match e with
  | .tp_hit => pnl
  | .sl_hit => pnl
  | .time_stop => pnl
  | .expired => pnl
  | .cancelled => pnl
  | .placed => none
  | .filled => none

/-- `TradingAgent._process_events` on the account: apply the trade result
whenever `handle_event` returned a realized P&L. -/
def processEventAccount (acct : AccountState) (ev : OrderEvent) : AccountState :=
  match handleEventPnl ev.event_type ev.pnl with
  | some pnl => acct.apply_trade_result pnl
  | none => acct

/-- The statuses `TradeLogger.summarize_trades` counts as closed trades
(its SQL filter `status IN ('TP_HIT', 'SL_HIT', 'TIME_STOP')`). -/
def isClosedStatus (e : OrderEventType) : Bool :=
  match e with
  | .tp_hit => true
  | .sl_hit => true
  | .time_stop => true
  | _ => false

/-- One row of the logger's `orders` table after a close event: the exit
branch of `TradeLogger.log_order_event` writes the action as the status and
the event's pnl/pnl_r. -/
structure LogOrderRow where
  status : OrderEventType
  pnl : Option ℚ
  pnl_r : Option ℚ
deriving DecidableEq, Repr

/-- `TradeLogger.summarize_trades` over the orders table. -/
structure TradeSummary where
  closed_trades : ℕ
  total_pnl : ℚ
  avg_rr : ℚ
  win_rate : ℚ
deriving DecidableEq, Repr

/-- The aggregate scan of `TradeLogger.summarize_trades`: only rows whose
status is TP_HIT, SL_HIT or TIME_STOP contribute. -/
def summarize_trades (rows : List LogOrderRow) : TradeSummary :=
  let closed := rows.filter fun r => isClosedStatus r.status
  let n := closed.length
  let total := (closed.map fun r => r.pnl.getD 0).sum
  let winners := (closed.filter fun r => decide (0 < r.pnl.getD 0)).length
  { closed_trades := n,
    total_pnl := total,
    avg_rr := if n = 0 then 0 else ((closed.map fun r => r.pnl_r.getD 0).sum) / (n : ℚ),
    win_rate := if n = 0 then 0 else (winners : ℚ) / (n : ℚ) }

/-- The end-to-end effect of one close event as wired in
`TradingAgent._process_events`: the state `handle_event` writes, the account
after any realized P&L, and the logger row recorded for the order. -/
def processCloseEvent (acct : AccountState) (ev : OrderEvent) :
    TradeState × AccountState × LogOrderRow :=
  (handleEventState ev.event_type,
   processEventAccount acct ev,
   { status := ev.event_type, pnl := ev.pnl, pnl_r := ev.pnl_r })

/-- C3 (amended: a bias-flip force-close takes the same OrderEvent path and
applies the same realized P&L to the account as a stop exit at the same
price, but its event type is CANCELLED, so the order ends CANCELLED rather
than EXIT and `summarize_trades` — which counts only TP_HIT/SL_HIT/TIME_STOP
statuses — excludes it from the closed-trade statistics). -/
theorem C3_bias_flip_account_vs_stats (value_per_point : ℚ) (order : OrderPlan)
    (now : ℤ) (acct : AccountState) (price ep : ℚ) :
    (processCloseEvent acct (close_order value_per_point order now .cancelled price ep "bias_flip")).2.1 =
      (processCloseEvent acct (close_order value_per_point order now .sl_hit price ep "sl_hit")).2.1 ∧
    (processCloseEvent acct (close_order value_per_point order now .cancelled price ep "bias_flip")).1 =
      .cancelled ∧
    (processCloseEvent acct (close_order value_per_point order now .sl_hit price ep "sl_hit")).1 =
      .exit ∧
    (summarize_trades
      [(processCloseEvent acct (close_order value_per_point order now .cancelled price ep "bias_flip")).2.2]).closed_trades = 0 ∧
    (summarize_trades
      [(processCloseEvent acct (close_order value_per_point order now .sl_hit price ep "sl_hit")).2.2]).closed_trades = 1 ∧
    (summarize_trades
      [(processCloseEvent acct (close_order value_per_point order now .cancelled price ep "bias_flip")).2.2]).total_pnl = 0 ∧
    (summarize_trades
      [(processCloseEvent acct (close_order value_per_point order now .sl_hit price ep "sl_hit")).2.2]).total_pnl =
      (computePnl value_per_point order ep price).1 := by
  refine ⟨rfl, rfl, rfl, rfl, rfl, rfl, ?_⟩
  simp [summarize_trades, processCloseEvent, close_order, isClosedStatus]

/-- Counterexample for C3 as stated: closing the 400-lot long at 2395 via
bias flip moves the account exactly like a stop exit (−2,000 applied), yet
contributes zero closed trades and zero total P&L to the statistics, where
the stop exit contributes one closed trade and −2,000. -/
theorem C3_counterexample :
    (close_order 1 w8order 10 .cancelled 2395 2400 "bias_flip").pnl = some (-2000) ∧
    processEventAccount c4acct (close_order 1 w8order 10 .cancelled 2395 2400 "bias_flip") =
      processEventAccount c4acct (close_order 1 w8order 10 .sl_hit 2395 2400 "sl_hit") ∧
    (summarize_trades
      [(processCloseEvent c4acct (close_order 1 w8order 10 .cancelled 2395 2400 "bias_flip")).2.2]).closed_trades = 0 ∧
    (summarize_trades
      [(processCloseEvent c4acct (close_order 1 w8order 10 .sl_hit 2395 2400 "sl_hit")).2.2]).closed_trades = 1 ∧
    (summarize_trades
      [(processCloseEvent c4acct (close_order 1 w8order 10 .cancelled 2395 2400 "bias_flip")).2.2]).total_pnl = 0 ∧
    (summarize_trades
      [(processCloseEvent c4acct (close_order 1 w8order 10 .sl_hit 2395 2400 "sl_hit")).2.2]).total_pnl = -2000 := by
  refine ⟨by decide, by decide, by decide, by decide, by decide, by decide⟩

end IctTrader
